import Mathlib

/-!
A shallow embedding of Zarumet's music-library loader (`src/song.rs`) and of
the cover-art main-loop components (`src/app/main_loop/cover_load.rs`,
`src/app/main_loop/state.rs`), together with proofs about the properties the
specification states for them.

Rust `String`s are modelled as `List Char`: Lean's lexicographic order on
`List Char` (by code point) coincides with Rust's byte-wise `Ord` on UTF-8
strings, since UTF-8 preserves code-point order.  Daemon round-trips are
modelled by passing the response (or its failure) as an explicit argument.
-/

/-- The model of a Rust `String`. -/
abbrev Str := List Char

/-- Model of Rust character lowercasing as exercised by `str::to_lowercase`
in this code base, restricted to the ASCII range. -/
def charLower (c : Char) : Char :=
  if 'A' ≤ c ∧ c ≤ 'Z' then Char.ofNat (c.toNat + 32) else c

/-- Model of Rust `str::to_lowercase`. -/
def strLower (s : Str) : Str := s.map charLower

/-- The fields of an `mpd_client::responses::Song` that `SongInfo::from_song`
reads (song.rs:30-71): optional title and album, artist and album-artist tag
lists, file path and the `(disc, track)` pair of `song.number()`. -/
structure Song where
  title : Option Str
  artists : List Str
  album_artists : List Str
  album : Option Str
  file_path : Str
  disc_number : Nat
  track_number : Nat
deriving DecidableEq, Repr

/-- `SongInfo` (song.rs:12-27).  The playback-progress fields
(`format`, `play_state`, `progress`, `elapsed`, `duration`), which no claim
touches, are omitted. -/
structure SongInfo where
  title : Str
  artist : Str
  album_artist : Str
  has_explicit_album_artist : Bool
  album : Str
  file_path : Str
  disc_number : Nat
  track_number : Nat
deriving DecidableEq, Repr

/-- `SongInfo::from_song` (song.rs:30-71). -/
def SongInfo.from_song (s : Song) : SongInfo :=
  let title := s.title.getD ("Unknown Title").data
  let artist := s.artists.head?.getD ("Unknown Artist").data
  let explicit_album_artist := s.album_artists.head?
  { title := title
    artist := artist
    album_artist := explicit_album_artist.getD artist
    has_explicit_album_artist := explicit_album_artist.isSome
    album := s.album.getD ("Unknown Album").data
    file_path := s.file_path
    disc_number := s.disc_number
    track_number := s.track_number }

/-- `Album` (song.rs:114-118). -/
structure Album where
  name : Str
  tracks : List SongInfo
deriving DecidableEq, Repr

/-- `Artist` (song.rs:141-145). -/
structure Artist where
  name : Str
  albums : List Album
deriving DecidableEq, Repr

/-- The keys of `l` under `key`, in order of first occurrence.  Together with
`groupByKey` this models the `HashMap` grouping loops of song.rs; the actual
iteration order of a Rust `std::collections::HashMap` is arbitrary, so claims
that depend on that order quantify over permutations of the groups instead. -/
def keysInOrder (key : α → Str) : List α → List Str
  | [] => []
  | x :: xs => key x :: (keysInOrder key xs).filter (fun k => k ≠ key x)

/-- Group a list by a `Str`-valued key: each key of `keysInOrder` paired with
the sublist of elements carrying that key, in input order (the order in which
`albums_map.entry(..).or_default().push(..)` accumulates them). -/
def groupByKey (key : α → Str) (l : List α) : List (Str × List α) :=
  (keysInOrder key l).map (fun k => (k, l.filter (fun x => key x = k)))

/-- The track comparator used by every `tracks.sort_by` in song.rs
(e.g. song.rs:277-282, 528-533): `disc_number.cmp` then `track_number.cmp`
then `title.cmp`, as the reflexive relation "compares not Greater". -/
def trackLe (a b : SongInfo) : Prop :=
  a.disc_number < b.disc_number ∨
    (a.disc_number = b.disc_number ∧
      (a.track_number < b.track_number ∨
        (a.track_number = b.track_number ∧ a.title ≤ b.title)))

instance (a b : SongInfo) : Decidable (trackLe a b) :=
  inferInstanceAs (Decidable (_ ∨ _))

/-- Case-sensitive album comparator of the eager loader
(`artist.albums.sort_by(|a, b| a.name.cmp(&b.name))`, song.rs:526). -/
def albumCsLe (x y : Album) : Prop := x.name ≤ y.name

instance (x y : Album) : Decidable (albumCsLe x y) :=
  inferInstanceAs (Decidable (_ ≤ _))

/-- Case-insensitive album comparator of the lazy loader
(`albums.sort_by(|a, b| a.name.to_lowercase().cmp(&b.name.to_lowercase()))`,
song.rs:291). -/
def albumCiLe (x y : Album) : Prop := strLower x.name ≤ strLower y.name

instance (x y : Album) : Decidable (albumCiLe x y) :=
  inferInstanceAs (Decidable (_ ≤ _))

/-- Artist comparator of the eager loader
(`artists.sort_by(|a, b| a.name.cmp(&b.name))`, song.rs:524). -/
def artistLe (x y : Artist) : Prop := x.name ≤ y.name

instance (x y : Artist) : Decidable (artistLe x y) :=
  inferInstanceAs (Decidable (_ ≤ _))

/-- Comparator of the flattened `all_albums` index (song.rs:314-319, 564-569):
lowercased album name, then lowercased artist name. -/
def allAlbumsLe (x y : Str × Album) : Prop :=
  strLower x.2.name < strLower y.2.name ∨
    (strLower x.2.name = strLower y.2.name ∧ strLower x.1 ≤ strLower y.1)

instance (x y : Str × Album) : Decidable (allAlbumsLe x y) :=
  inferInstanceAs (Decidable (_ ∨ _))

/-- Case-insensitive name comparator of `LazyLibrary::init`
(`artist_names.sort_by_key(|a| a.to_lowercase())`, song.rs:214). -/
def nameCiLe (x y : Str) : Prop := strLower x ≤ strLower y

instance (x y : Str) : Decidable (nameCiLe x y) :=
  inferInstanceAs (Decidable (_ ≤ _))

/-- A `tracks.sort_by(..)` call with the disc/track/title comparator;
Rust's stable `sort_by` is modelled by stable insertion sort. -/
def sortTracks (ts : List SongInfo) : List SongInfo :=
  List.insertionSort trackLe ts

/-- `LazyArtist` (song.rs:148-153). -/
structure LazyArtist where
  name : Str
  albums : Option (List Album)
deriving DecidableEq, Repr

/-- `LazyArtist::new` (song.rs:157-159). -/
def LazyArtist.new (name : Str) : LazyArtist :=
  { name := name, albums := none }

/-- `LazyArtist::is_loaded` (song.rs:162-164). -/
def LazyArtist.is_loaded (a : LazyArtist) : Bool := a.albums.isSome

/-- `LazyArtist::to_artist` (song.rs:172-177). -/
def LazyArtist.to_artist (a : LazyArtist) : Artist :=
  { name := a.name, albums := a.albums.getD [] }

/-- `LazyLibrary` (song.rs:181-191). -/
structure LazyLibrary where
  artists : List LazyArtist
  all_albums : List (Str × Album)
  all_albums_complete : Bool
deriving DecidableEq, Repr

/-- `LazyLibrary::init` (song.rs:197-230), with the daemon's
`list AlbumArtist` response passed as the argument: drop empty names, sort
case-insensitively, materialize name-only artists, empty flattened index,
completion flag `false`. -/
def LazyLibrary.init (names : List Str) : LazyLibrary :=
  { artists :=
      (List.insertionSort nameCiLe (names.filter (fun n => n ≠ []))).map LazyArtist.new
    all_albums := []
    all_albums_complete := false }

/-- The album-building shared by the lazy loads (song.rs:262-291): group the
fetched songs by album name, sort each album's tracks by (disc, track, title),
and sort the albums case-insensitively by name. -/
def buildAlbums (infos : List SongInfo) : List Album :=
  List.insertionSort albumCiLe
    ((groupByKey (fun si => si.album) infos).map
      (fun g => { name := g.1, tracks := sortTracks g.2 }))

/-- The `all_albums` merge loop of `LazyLibrary::load_artist`
(song.rs:301-311): push each new `(artist, album)` pair unless an entry with
the same artist name and album name is already present (the membership test
runs against the list being extended, exactly as `self.all_albums` is pushed
to inside the loop). -/
def mergeAllAlbums (all : List (Str × Album)) (artist_name : Str)
    (albums : List Album) : List (Str × Album) :=
  albums.foldl
    (fun acc album =>
      if ∃ e ∈ acc, e.1 = artist_name ∧ e.2.name = album.name then acc
      else acc ++ [(artist_name, album)])
    all

/-- `LazyLibrary::load_artist` (song.rs:234-328), with the daemon's `find`
response passed as `songs`.  The second component of a successful result is
the number of daemon round-trips performed (`0` on the already-loaded early
return, `1` otherwise). -/
def LazyLibrary.load_artist (lib : LazyLibrary) (i : Nat) (songs : List Song) :
    Except String (LazyLibrary × Nat) :=
  match lib.artists.get? i with
  | none => .error ("Artist index out of bounds")
  | some a =>
    if a.is_loaded then .ok (lib, 0)
    else
      let albums := buildAlbums (songs.map SongInfo.from_song)
      let artists := lib.artists.set i { a with albums := some albums }
      .ok
        ({ artists := artists
           all_albums :=
             List.insertionSort allAlbumsLe (mergeAllAlbums lib.all_albums a.name albums)
           all_albums_complete := artists.all (fun x => x.is_loaded) },
         1)

/-- `LazyLibrary::get_artist_albums` (song.rs:331-333). -/
def LazyLibrary.get_artist_albums (lib : LazyLibrary) (i : Nat) : Option (List Album) :=
  (lib.artists.get? i).bind (fun a => a.albums)

/-- `LazyLibrary::is_artist_loaded` (song.rs:336-341). -/
def LazyLibrary.is_artist_loaded (lib : LazyLibrary) (i : Nat) : Bool :=
  ((lib.artists.get? i).map (fun a => a.is_loaded)).getD false

/-- `LazyLibrary::get_artist` (song.rs:351-353). -/
def LazyLibrary.get_artist (lib : LazyLibrary) (i : Nat) : Option Artist :=
  (lib.artists.get? i).map LazyArtist.to_artist

/-- `Library` (song.rs:420-426). -/
structure Library where
  artists : List Artist
  all_albums : List (Str × Album)
deriving DecidableEq, Repr

/-- Pass 1 of the eager loader (song.rs:444-454): group every song by album
name. -/
def albumsByName (infos : List SongInfo) : List (Str × List SongInfo) :=
  groupByKey (fun si => si.album) infos

/-- The per-album artist occurrence counts of the eager fallback
(song.rs:473-477), enumerated in first-occurrence order; an actual `HashMap`
enumerates them in an arbitrary order, so order-sensitive claims quantify over
permutations of this list. -/
def artistCounts (tracks : List SongInfo) : List (Str × Nat) :=
  (groupByKey (fun t => t.album_artist) tracks).map (fun g => (g.1, g.2.length))

/-- One step of Rust `Iterator::max_by_key` (song.rs:478-480): keep the
running maximum, the newer element winning ties. -/
def maxStep (acc : Option (Str × Nat)) (p : Str × Nat) : Option (Str × Nat) :=
  match acc with
  | none => some p
  | some q => if q.2 ≤ p.2 then some p else some q

/-- Rust `Iterator::max_by_key` (song.rs:478-480) on an enumeration of the
count map: of several maximal elements, the last one wins. -/
def maxByKeyLast (l : List (Str × Nat)) : Option (Str × Nat) :=
  l.foldl maxStep none

/-- The fallback branch of canonical-artist resolution (song.rs:472-482):
most frequent artist, `"Unknown Artist"` for an empty album. -/
def resolveFallback (counts : List (Str × Nat)) : Str :=
  ((maxByKeyLast counts).map (fun p => p.1)).getD ("Unknown Artist").data

/-- Canonical album-artist resolution for one album's track list
(song.rs:462-486): the first track carrying an explicit album-artist tag wins;
otherwise fall back to the most frequent artist. -/
def resolveCanonical (tracks : List SongInfo) : Str :=
  match tracks.find? (fun t => t.has_explicit_album_artist) with
  | some t => t.album_artist
  | none => resolveFallback (artistCounts tracks)

/-- Association-list lookup, modelling `HashMap::get` on maps whose keys are
unique. -/
def lookupStr (k : Str) : List (Str × β) → Option β
  | [] => none
  | p :: rest => if p.1 = k then some p.2 else lookupStr k rest

/-- The `canonical_album_artist` map of pass 1 (song.rs:459-486). -/
def canonicalMap (infos : List SongInfo) : List (Str × Str) :=
  (albumsByName infos).map (fun g => (g.1, resolveCanonical g.2))

/-- Pass 2's per-song rewrite (song.rs:494-501): overwrite `album_artist` with
the album's canonical artist. -/
def pass2 (infos : List SongInfo) : List SongInfo :=
  infos.map
    (fun si =>
      match lookupStr si.album (canonicalMap infos) with
      | some c => { si with album_artist := c }
      | none => si)

/-- The `artists_map` build of pass 2 (song.rs:488-522): group the rewritten
songs by album artist, then by album name. -/
def buildArtistsEager (infos : List SongInfo) : List Artist :=
  (groupByKey (fun si => si.album_artist) infos).map
    (fun g =>
      { name := g.1
        albums :=
          (groupByKey (fun si => si.album) g.2).map
            (fun h => { name := h.1, tracks := h.2 }) })

/-- `Library::load_library` (song.rs:429-575), from the daemon's flat song
catalog: pass 1 canonicalization, pass 2 regrouping, the three sorts of
song.rs:524-535, and the flattened index of song.rs:556-569. -/
def Library.load_library (songs : List Song) : Library :=
  let infos := pass2 (songs.map SongInfo.from_song)
  let artists :=
    (List.insertionSort artistLe (buildArtistsEager infos)).map
      (fun ar =>
        { ar with
            albums :=
              (List.insertionSort albumCsLe ar.albums).map
                (fun al => { al with tracks := sortTracks al.tracks }) })
  { artists := artists
    all_albums :=
      List.insertionSort allAlbumsLe
        ((artists.map (fun ar => ar.albums.map (fun al => (ar.name, al)))).flatten) }

/-- `MAX_RETRIES` (song.rs:599). -/
def MAX_RETRIES : Nat := 3

/-- `BASE_DELAY_MS` (song.rs:600). -/
def BASE_DELAY_MS : Nat := 1000

/-- Observable trace of `Library::load_songs_with_retry`: the value returned,
the sequence of back-off sleeps (in milliseconds) performed, and the number of
fetch attempts made. -/
structure RetryTrace where
  result : Except String (List Song)
  sleeps : List Nat
  attempts : Nat
deriving Repr

/-- The `for attempt in 1..=MAX_RETRIES` loop of song.rs:602-652, with the
outcome of each attempt given by `outcome`.  The fuel argument counts the
remaining iterations of the bounded loop. -/
def retryGo (outcome : Nat → Except String (List Song)) :
    Nat → Nat → List Nat → RetryTrace
  | 0, attempt, sleeps =>
    { result := .error ("unreachable"), sleeps := sleeps, attempts := attempt - 1 }
  | fuel + 1, attempt, sleeps =>
    match outcome attempt with
    | .ok songs => { result := .ok songs, sleeps := sleeps, attempts := attempt }
    | .error e =>
      if attempt = MAX_RETRIES then
        { result := .error ("Failed to load library after 3 attempts: " ++ e)
          sleeps := sleeps
          attempts := attempt }
      else
        retryGo outcome fuel (attempt + 1)
          (sleeps ++ [BASE_DELAY_MS * 2 ^ (attempt - 1)])

/-- `Library::load_songs_with_retry` (song.rs:598-655), with attempt `k`'s
daemon response given by `outcome k`. -/
def Library.load_songs_with_retry (outcome : Nat → Except String (List Song)) :
    RetryTrace :=
  retryGo outcome MAX_RETRIES 1 []

/-- Raw artwork bytes (Rust `Vec<u8>`). -/
abbrev Bytes := List UInt8

/-- Modelled from the spec: the Cover Cache of §4.1.  Its source file
(`src/app/ui/cache/cover_cache.rs`) is not under `src/`; only its callers in
`cover_load.rs` and `state.rs` are.  An entry maps a file key to the stored
fetch result (`none` is a cached negative result), and the pending set holds
the keys with an outstanding in-flight fetch. -/
structure CoverCache where
  entries : List (Str × Option Bytes)
  pending : List Str
deriving DecidableEq, Repr

/-- Association-list update used to model the cache's key-value store:
overwrite the entry if the key is present, append it otherwise. -/
def insertEntry (k : Str) (v : Option Bytes) :
    List (Str × Option Bytes) → List (Str × Option Bytes)
  | [] => [(k, v)]
  | p :: rest => if p.1 = k then (k, v) :: rest else p :: insertEntry k v rest

/-- Modelled from the spec: `get(key)` of §4.1 returns the cached entry, whose
`data` field is the stored optional artwork. -/
def CoverCache.get (c : CoverCache) (k : Str) : Option (Option Bytes) :=
  lookupStr k c.entries

/-- Modelled from the spec: `contains(key)` of §4.1. -/
def CoverCache.containsKey (c : CoverCache) (k : Str) : Prop :=
  (c.get k).isSome = true

instance (c : CoverCache) (k : Str) : Decidable (c.containsKey k) :=
  inferInstanceAs (Decidable (_ = _))

/-- Modelled from the spec: `is_pending(key)` of §4.1. -/
def CoverCache.is_pending (c : CoverCache) (k : Str) : Prop :=
  k ∈ c.pending

instance (c : CoverCache) (k : Str) : Decidable (c.is_pending k) :=
  inferInstanceAs (Decidable (_ ∈ _))

/-- Modelled from the spec: `mark_pending(key)` of §4.1. -/
def CoverCache.mark_pending (c : CoverCache) (k : Str) : CoverCache :=
  { c with pending := k :: c.pending }

/-- Modelled from the spec: `insert(key, data)` of §4.1 — clears pending and
stores the final result, whether some bytes or `none`. -/
def CoverCache.insert (c : CoverCache) (k : Str) (v : Option Bytes) : CoverCache :=
  { entries := insertEntry k v c.entries
    pending := c.pending.filter (fun x => x ≠ k) }

/-- The daemon's answer to `client.album_art(uri)`: success with optional
artwork, or an error. -/
inductive FetchResult where
  | ok : Option Bytes → FetchResult
  | err : String → FetchResult
deriving DecidableEq, Repr

/-- The `match result` of cover_load.rs:54-61 and cover_load.rs:103-110: a
fetch error is mapped to `None`, exactly like a successful fetch that found
no art. -/
def fetchData : FetchResult → Option Bytes
  | .ok d => d
  | .err _ => none

/-- One run of the task body spawned by `spawn_cover_art_loader`
(cover_load.rs:25-73), with the daemon round-trip result passed as `fetch`.
Returns the final cache state and the messages delivered on the result
channel (each a `CoverArtMessage::Loaded(data, path)` pair). -/
def cover_art_loader_step (cache : CoverCache) (file_path : Str)
    (fetch : FetchResult) : CoverCache × List (Option Bytes × Str) :=
  match cache.get file_path with
  | some cached => (cache, [(cached, file_path)])
  | none =>
    if cache.is_pending file_path then (cache, [])
    else
      let data := fetchData fetch
      ((cache.mark_pending file_path).insert file_path data, [(data, file_path)])

/-- One run of a task body spawned by `spawn_prefetch_loaders`
(cover_load.rs:89-118) for one target key: skip if cached or pending,
otherwise fetch and store; nothing is ever delivered on a channel. -/
def prefetch_loader_step (cache : CoverCache) (file_path : Str)
    (fetch : FetchResult) : CoverCache :=
  if cache.containsKey file_path ∨ cache.is_pending file_path then cache
  else (cache.mark_pending file_path).insert file_path (fetchData fetch)

/-- Modelled from the spec: `find_current_index` of §4.4/§6
(`src/app/ui/cache/cover_cache.rs`, not under `src/`) — the resolved index of
the current song in the queue, by file key. -/
def find_current_index (queue : List SongInfo) (current : Option SongInfo) :
    Option Nat :=
  current.bind (fun s => queue.findIdx? (fun q => q.file_path = s.file_path))

/-- Modelled from the spec: `get_prefetch_targets` of §4.2
(`src/app/ui/cache/cover_cache.rs`, not under `src/`) — the file keys of the
immediately preceding and following queue entries, never the current track's
own key, and empty when there is no current index. -/
def get_prefetch_targets (queue : List SongInfo) (idx : Option Nat) : List Str :=
  match idx with
  | none => []
  | some i =>
    ((if 1 ≤ i then (queue.get? (i - 1)).toList else []) ++
        (queue.get? (i + 1)).toList).map
      (fun s => s.file_path)

/-- The mutable state `check_song_change` reads and writes: the last-seen
current-track key (`current_song_file`) and the displayed-art handle
(`protocol.image`). -/
structure ReactorState where
  current_song_file : Option Str
  protocol_image : Option Bytes
deriving DecidableEq, Repr

/-- A background task spawned by `check_song_change`. -/
inductive SpawnedTask where
  | coverLoad : Str → SpawnedTask
  | prefetchLoads : List Str → SpawnedTask
deriving DecidableEq, Repr

/-- `check_song_change` (state.rs:20-54): compute the new current-track key;
if unchanged do nothing, otherwise clear the image when there is no current
song, spawn the on-demand cover load for the new key, spawn the prefetch
loaders for the adjacent window, and record the new key. -/
def check_song_change (st : ReactorState) (current_song : Option SongInfo)
    (queue : List SongInfo) : ReactorState × List SpawnedTask :=
  let new_song_file := current_song.map (fun s => s.file_path)
  if new_song_file ≠ st.current_song_file then
    let image := if current_song.isNone then none else st.protocol_image
    let loadTasks :=
      match new_song_file with
      | some fp => [SpawnedTask.coverLoad fp]
      | none => []
    let idx := find_current_index queue current_song
    ({ current_song_file := new_song_file, protocol_image := image },
      loadTasks ++ [SpawnedTask.prefetchLoads (get_prefetch_targets queue idx)])
  else (st, [])

/-! Order-theoretic facts about the comparators, needed for sortedness. -/

theorem trackLe_trans {a b c : SongInfo} (h1 : trackLe a b) (h2 : trackLe b c) :
    trackLe a c := by
  unfold trackLe at *
  rcases h1 with h1 | ⟨e1, h1⟩ <;> rcases h2 with h2 | ⟨e2, h2⟩
  · exact Or.inl (h1.trans h2)
  · exact Or.inl (e2 ▸ h1)
  · exact Or.inl (e1 ▸ h2)
  · refine Or.inr ⟨e1.trans e2, ?_⟩
    rcases h1 with h1 | ⟨f1, h1⟩ <;> rcases h2 with h2 | ⟨f2, h2⟩
    · exact Or.inl (h1.trans h2)
    · exact Or.inl (f2 ▸ h1)
    · exact Or.inl (f1 ▸ h2)
    · exact Or.inr ⟨f1.trans f2, le_trans h1 h2⟩

instance : IsTrans SongInfo trackLe := ⟨fun _ _ _ => trackLe_trans⟩

theorem trackLe_total (a b : SongInfo) : trackLe a b ∨ trackLe b a := by
  unfold trackLe
  rcases Nat.lt_trichotomy a.disc_number b.disc_number with h | h | h
  · exact Or.inl (Or.inl h)
  · rcases Nat.lt_trichotomy a.track_number b.track_number with h' | h' | h'
    · exact Or.inl (Or.inr ⟨h, Or.inl h'⟩)
    · rcases le_total a.title b.title with h'' | h''
      · exact Or.inl (Or.inr ⟨h, Or.inr ⟨h', h''⟩⟩)
      · exact Or.inr (Or.inr ⟨h.symm, Or.inr ⟨h'.symm, h''⟩⟩)
    · exact Or.inr (Or.inr ⟨h.symm, Or.inl h'⟩)
  · exact Or.inr (Or.inl h)

instance : IsTotal SongInfo trackLe := ⟨trackLe_total⟩

instance : IsTrans Album albumCsLe := ⟨fun _ _ _ => le_trans⟩

instance : IsTotal Album albumCsLe := ⟨fun a b => le_total a.name b.name⟩

instance : IsTrans Album albumCiLe := ⟨fun _ _ _ => le_trans⟩

instance : IsTotal Album albumCiLe :=
  ⟨fun a b => le_total (strLower a.name) (strLower b.name)⟩

instance : IsTrans Artist artistLe := ⟨fun _ _ _ => le_trans⟩

instance : IsTotal Artist artistLe := ⟨fun a b => le_total a.name b.name⟩

instance : IsTrans Str nameCiLe := ⟨fun _ _ _ => le_trans⟩

instance : IsTotal Str nameCiLe := ⟨fun a b => le_total (strLower a) (strLower b)⟩

theorem allAlbumsLe_trans {a b c : Str × Album} (h1 : allAlbumsLe a b)
    (h2 : allAlbumsLe b c) : allAlbumsLe a c := by
  unfold allAlbumsLe at *
  rcases h1 with h1 | ⟨e1, h1⟩ <;> rcases h2 with h2 | ⟨e2, h2⟩
  · exact Or.inl (h1.trans h2)
  · exact Or.inl (e2 ▸ h1)
  · exact Or.inl (e1 ▸ h2)
  · exact Or.inr ⟨e1.trans e2, le_trans h1 h2⟩

instance : IsTrans (Str × Album) allAlbumsLe := ⟨fun _ _ _ => allAlbumsLe_trans⟩

theorem allAlbumsLe_total (a b : Str × Album) : allAlbumsLe a b ∨ allAlbumsLe b a := by
  unfold allAlbumsLe
  rcases lt_trichotomy (strLower a.2.name) (strLower b.2.name) with h | h | h
  · exact Or.inl (Or.inl h)
  · rcases le_total (strLower a.1) (strLower b.1) with h' | h'
    · exact Or.inl (Or.inr ⟨h, h'⟩)
    · exact Or.inr (Or.inr ⟨h.symm, h'⟩)
  · exact Or.inr (Or.inl h)

instance : IsTotal (Str × Album) allAlbumsLe := ⟨allAlbumsLe_total⟩

/-! Facts about the grouping combinators. -/

theorem mem_keysInOrder {key : α → Str} {l : List α} {k : Str} :
    k ∈ keysInOrder key l ↔ ∃ x ∈ l, key x = k := by
  induction l with
  | nil => simp [keysInOrder]
  | cons x xs ih =>
    simp only [keysInOrder, List.mem_cons, List.mem_filter, decide_eq_true_eq]
    constructor
    · rintro (rfl | ⟨hk, _⟩)
      · exact ⟨x, Or.inl rfl, rfl⟩
      · obtain ⟨y, hy, hky⟩ := ih.1 hk
        exact ⟨y, Or.inr hy, hky⟩
    · rintro ⟨y, hy, rfl⟩
      rcases hy with rfl | hy'
      · exact Or.inl rfl
      · by_cases hkx : key y = key x
        · exact Or.inl hkx
        · exact Or.inr ⟨ih.2 ⟨y, hy', rfl⟩, hkx⟩

theorem mem_groupByKey {key : α → Str} {l : List α} {p : Str × List α} :
    p ∈ groupByKey key l ↔
      p.1 ∈ keysInOrder key l ∧ p.2 = l.filter (fun x => key x = p.1) := by
  unfold groupByKey
  constructor
  · intro hp
    obtain ⟨k, hk, he⟩ := List.mem_map.1 hp
    cases he
    exact ⟨hk, rfl⟩
  · rintro ⟨h1, h2⟩
    refine List.mem_map.2 ⟨p.1, h1, ?_⟩
    obtain ⟨a, b⟩ := p
    simp only at h2 ⊢
    rw [h2]

theorem mem_of_mem_group {key : α → Str} {l : List α} {p : Str × List α}
    (hp : p ∈ groupByKey key l) {x : α} (hx : x ∈ p.2) :
    x ∈ l ∧ key x = p.1 := by
  obtain ⟨-, h2⟩ := mem_groupByKey.1 hp
  rw [h2] at hx
  have := List.mem_filter.1 hx
  exact ⟨this.1, by simpa using this.2⟩

theorem lookupStr_mapKeys {ks : List Str} {f : Str → β} {k : Str} (hk : k ∈ ks) :
    lookupStr k (ks.map (fun k' => (k', f k'))) = some (f k) := by
  induction ks with
  | nil => cases hk
  | cons a as ih =>
    rcases List.mem_cons.1 hk with rfl | hk'
    · simp [lookupStr]
    · by_cases hak : a = k
      · subst hak; simp [lookupStr]
      · simpa [lookupStr, hak] using ih hk'

/-! ### C10 — `LazyLibrary::get_artist` on out-of-bounds and unloaded indices -/

/-- C10: `LazyLibrary::get_artist(i)` returns `none` exactly when `i` is out
of bounds, and for every in-bounds index whose artist is not yet loaded it
returns an `Artist` with that artist's name and an empty album list. -/
theorem c10_get_artist :
    (∀ (lib : LazyLibrary) (i : Nat),
      lib.get_artist i = none ↔ lib.artists.length ≤ i) ∧
    (∀ (lib : LazyLibrary) (i : Nat) (a : LazyArtist),
      lib.artists.get? i = some a → a.albums = none →
      lib.get_artist i = some { name := a.name, albums := [] }) := by
  constructor
  · intro lib i
    unfold LazyLibrary.get_artist
    rw [Option.map_eq_none']
    exact List.get?_eq_none
  · intro lib i a ha hn
    unfold LazyLibrary.get_artist
    rw [ha]
    simp [LazyArtist.to_artist, hn]

/-- Concrete instantiation of `c10_get_artist`: in a freshly initialized
library the artist at index `0` is unloaded and rendered with no albums. -/
theorem c10_get_artist_witness :
    (LazyLibrary.init [("Foo").data]).get_artist 0 =
      some { name := ("Foo").data, albums := [] } :=
  c10_get_artist.2 (LazyLibrary.init [("Foo").data]) 0
    (LazyArtist.new (("Foo").data)) (by decide) (by decide)

/-! ### C6 — idempotence of `LazyLibrary::load_artist` -/

/-- C6: loading an already-loaded artist returns `Ok` immediately with zero
daemon round-trips and an unchanged library; a successful load leaves the
artist loaded, so a repeated `load_artist` call is a complete no-op: the
stored albums and the flattened index are untouched and gain no duplicates. -/
theorem c6_load_artist_idempotent :
    (∀ (lib : LazyLibrary) (i : Nat) (songs : List Song) (a : LazyArtist),
      lib.artists.get? i = some a → a.is_loaded = true →
      lib.load_artist i songs = .ok (lib, 0)) ∧
    (∀ (lib lib' : LazyLibrary) (i k : Nat) (songs : List Song),
      lib.load_artist i songs = .ok (lib', k) →
      ∃ a, lib'.artists.get? i = some a ∧ a.is_loaded = true) ∧
    (∀ (lib lib' : LazyLibrary) (i k : Nat) (songs songs2 : List Song),
      lib.load_artist i songs = .ok (lib', k) →
      lib'.load_artist i songs2 = .ok (lib', 0)) := by
  have part1 : ∀ (lib : LazyLibrary) (i : Nat) (songs : List Song) (a : LazyArtist),
      lib.artists.get? i = some a → a.is_loaded = true →
      lib.load_artist i songs = .ok (lib, 0) := by
    intro lib i songs a ha hl
    unfold LazyLibrary.load_artist
    rw [ha]
    simp [hl]
  have part2 : ∀ (lib lib' : LazyLibrary) (i k : Nat) (songs : List Song),
      lib.load_artist i songs = .ok (lib', k) →
      ∃ a, lib'.artists.get? i = some a ∧ a.is_loaded = true := by
    intro lib lib' i k songs h
    unfold LazyLibrary.load_artist at h
    cases ha : lib.artists.get? i with
    | none => rw [ha] at h; exact absurd h (by simp)
    | some a =>
      rw [ha] at h
      dsimp only at h
      by_cases hl : a.is_loaded = true
      · rw [if_pos hl] at h
        have hlib : lib = lib' := by cases h; rfl
        subst hlib
        exact ⟨a, ha, hl⟩
      · rw [if_neg hl] at h
        have hlen : i < lib.artists.length := by
          by_contra hlen
          rw [List.get?_eq_none.2 (le_of_not_lt hlen)] at ha
          cases ha
        refine ⟨{ a with albums := some (buildAlbums (songs.map SongInfo.from_song)) }, ?_, rfl⟩
        have hset := List.get?_set_eq_of_lt
          { a with albums := some (buildAlbums (songs.map SongInfo.from_song)) }
          (l := lib.artists) hlen
        cases h
        simpa using hset
  refine ⟨part1, part2, ?_⟩
  intro lib lib' i k songs songs2 h
  obtain ⟨a, ha, hl⟩ := part2 lib lib' i k songs h
  exact part1 lib' i songs2 a ha hl

/-- A one-artist library whose single artist is already loaded. -/
def c6lib : LazyLibrary :=
  { artists := [{ name := ("A").data, albums := some [] }]
    all_albums := []
    all_albums_complete := true }

/-- Concrete instantiation of `c6_load_artist_idempotent`: a second load of a
loaded artist is the identity. -/
theorem c6_load_artist_idempotent_witness :
    c6lib.load_artist 0 [] = .ok (c6lib, 0) :=
  c6_load_artist_idempotent.1 c6lib 0 []
    { name := ("A").data, albums := some [] } (by decide) (by decide)

/-! ### C9 — `check_song_change` is a no-op on an unchanged track key -/

/-- C9: when the current track's file key equals the last-seen key,
`check_song_change` spawns no task and leaves the whole reactor state (both
the displayed-art handle and the stored key) unchanged; in particular the
second of two consecutive calls with the same current song does nothing. -/
theorem c9_check_song_change :
    (∀ (st : ReactorState) (current_song : Option SongInfo) (queue : List SongInfo),
      current_song.map (fun s => s.file_path) = st.current_song_file →
      check_song_change st current_song queue = (st, [])) ∧
    (∀ (st : ReactorState) (current_song : Option SongInfo) (queue : List SongInfo),
      check_song_change (check_song_change st current_song queue).1 current_song queue =
        ((check_song_change st current_song queue).1, [])) := by
  have base : ∀ (st : ReactorState) (cs : Option SongInfo) (q : List SongInfo),
      cs.map (fun s => s.file_path) = st.current_song_file →
      check_song_change st cs q = (st, []) := by
    intro st cs q h
    unfold check_song_change
    simp [h]
  refine ⟨base, ?_⟩
  intro st cs q
  apply base
  by_cases h : cs.map (fun s => s.file_path) = st.current_song_file
  · rw [base st cs q h]
    exact h
  · unfold check_song_change
    simp [h]

/-- Concrete instantiation of `c9_check_song_change`: replaying the same
current-track key triggers nothing. -/
theorem c9_check_song_change_witness :
    check_song_change
        { current_song_file := some (("f1").data), protocol_image := none }
        (some { title := ("t").data, artist := ("a").data,
                album_artist := ("a").data, has_explicit_album_artist := false,
                album := ("al").data, file_path := ("f1").data,
                disc_number := 1, track_number := 1 })
        [] =
      ({ current_song_file := some (("f1").data), protocol_image := none }, []) :=
  c9_check_song_change.1
    { current_song_file := some (("f1").data), protocol_image := none }
    (some { title := ("t").data, artist := ("a").data,
            album_artist := ("a").data, has_explicit_album_artist := false,
            album := ("al").data, file_path := ("f1").data,
            disc_number := 1, track_number := 1 })
    [] (by decide)

/-! ### C8 — failed art fetches are cached as negative results -/

theorem lookupStr_insertEntry (l : List (Str × Option Bytes)) (k : Str)
    (v : Option Bytes) : lookupStr k (insertEntry k v l) = some v := by
  induction l with
  | nil => simp [insertEntry, lookupStr]
  | cons p rest ih =>
    by_cases h : p.1 = k
    · simp [insertEntry, h, lookupStr]
    · simp [insertEntry, h, lookupStr, ih]

/-- C8: when the daemon art fetch fails, the on-demand loader behaves exactly
as if the fetch had succeeded with no art: it caches `none` for the key,
delivers `(none, key)` on the result channel, and surfaces no error; the
prefetch loader likewise caches `none` and delivers nothing. -/
theorem c8_fetch_error_cached_none (cache : CoverCache) (key : Str) (e : String)
    (h1 : cache.get key = none) (h2 : ¬ cache.is_pending key) :
    cover_art_loader_step cache key (.err e) = cover_art_loader_step cache key (.ok none) ∧
    (cover_art_loader_step cache key (.err e)).1.get key = some none ∧
    (cover_art_loader_step cache key (.err e)).2 = [(none, key)] ∧
    prefetch_loader_step cache key (.err e) = prefetch_loader_step cache key (.ok none) ∧
    (prefetch_loader_step cache key (.err e)).get key = some none := by
  have hc : ¬ cache.containsKey key := by
    unfold CoverCache.containsKey
    rw [h1]
    simp
  refine ⟨?_, ?_, ?_, ?_, ?_⟩
  · unfold cover_art_loader_step
    rw [h1]
    rfl
  · unfold cover_art_loader_step
    rw [h1]
    dsimp only
    rw [if_neg h2]
    exact lookupStr_insertEntry _ key none
  · unfold cover_art_loader_step
    rw [h1]
    dsimp only
    rw [if_neg h2]
    rfl
  · unfold prefetch_loader_step
    rfl
  · unfold prefetch_loader_step
    rw [if_neg (by exact fun h => h.elim hc h2)]
    exact lookupStr_insertEntry _ key none

/-- Concrete instantiation of `c8_fetch_error_cached_none` on the empty
cache. -/
theorem c8_fetch_error_cached_none_witness :
    (cover_art_loader_step { entries := [], pending := [] } (("f1").data)
        (.err "timed out")).1.get (("f1").data) = some none :=
  (c8_fetch_error_cached_none { entries := [], pending := [] } (("f1").data)
    "timed out" (by decide) (by decide)).2.1

/-! ### C5 — bounded retry with exponential backoff in the eager bulk load -/

/-- C5: `load_songs_with_retry` makes at most 3 attempts; the back-off sleeps
performed are exactly the strictly increasing prefix 1000ms, 2000ms cut at the
last attempt made; the songs of the first successful attempt are returned and
no attempt after it is made; and an error is returned only when all 3 attempts
failed, wrapping the last attempt's failure. -/
theorem c5_retry (outcome : Nat → Except String (List Song)) :
    (Library.load_songs_with_retry outcome).attempts ≤ 3 ∧
    List.Chain' (· < ·) (Library.load_songs_with_retry outcome).sleeps ∧
    (Library.load_songs_with_retry outcome).sleeps =
      [1000, 2000].take ((Library.load_songs_with_retry outcome).attempts - 1) ∧
    (∀ songs, (Library.load_songs_with_retry outcome).result = .ok songs →
      outcome (Library.load_songs_with_retry outcome).attempts = .ok songs ∧
      ∀ j, 1 ≤ j → j < (Library.load_songs_with_retry outcome).attempts →
        ∃ e, outcome j = .error e) ∧
    (∀ msg, (Library.load_songs_with_retry outcome).result = .error msg →
      (Library.load_songs_with_retry outcome).attempts = 3 ∧
      ∃ e, outcome 3 = .error e ∧
        msg = "Failed to load library after 3 attempts: " ++ e ∧
        ∀ j, 1 ≤ j → j ≤ 3 → ∃ ej, outcome j = .error ej) := by
  cases h1 : outcome 1 with
  | ok s1 =>
    have hT : Library.load_songs_with_retry outcome =
        { result := .ok s1, sleeps := [], attempts := 1 } := by
      simp [Library.load_songs_with_retry, retryGo, MAX_RETRIES, h1]
    rw [hT]
    dsimp only
    refine ⟨by omega, by decide, by rfl, ?_, ?_⟩
    · intro songs hok
      cases hok
      exact ⟨h1, fun j hj1 hj2 => absurd hj2 (by omega)⟩
    · intro msg hmsg
      cases hmsg
  | error e1 =>
    cases h2 : outcome 2 with
    | ok s2 =>
      have hT : Library.load_songs_with_retry outcome =
          { result := .ok s2, sleeps := [1000], attempts := 2 } := by
        simp [Library.load_songs_with_retry, retryGo, MAX_RETRIES, BASE_DELAY_MS, h1, h2]
      rw [hT]
      dsimp only
      refine ⟨by omega, by simp [List.chain'_cons], by rfl, ?_, ?_⟩
      · intro songs hok
        cases hok
        refine ⟨h2, ?_⟩
        intro j hj1 hj2
        interval_cases j
        exact ⟨e1, h1⟩
      · intro msg hmsg
        cases hmsg
    | error e2 =>
      cases h3 : outcome 3 with
      | ok s3 =>
        have hT : Library.load_songs_with_retry outcome =
            { result := .ok s3, sleeps := [1000, 2000], attempts := 3 } := by
          simp [Library.load_songs_with_retry, retryGo, MAX_RETRIES, BASE_DELAY_MS,
            h1, h2, h3]
        rw [hT]
        dsimp only
        refine ⟨by omega, by simp [List.chain'_cons], by rfl, ?_, ?_⟩
        · intro songs hok
          cases hok
          refine ⟨h3, ?_⟩
          intro j hj1 hj2
          interval_cases j
          · exact ⟨e1, h1⟩
          · exact ⟨e2, h2⟩
        · intro msg hmsg
          cases hmsg
      | error e3 =>
        have hT : Library.load_songs_with_retry outcome =
            { result := .error ("Failed to load library after 3 attempts: " ++ e3),
              sleeps := [1000, 2000], attempts := 3 } := by
          simp [Library.load_songs_with_retry, retryGo, MAX_RETRIES, BASE_DELAY_MS,
            h1, h2, h3]
        rw [hT]
        dsimp only
        refine ⟨by omega, by simp [List.chain'_cons], by rfl, ?_, ?_⟩
        · intro songs hok
          cases hok
        · intro msg hmsg
          cases hmsg
          refine ⟨rfl, e3, rfl, rfl, ?_⟩
          intro j hj1 hj2
          interval_cases j
          · exact ⟨e1, h1⟩
          · exact ⟨e2, h2⟩
          · exact ⟨e3, h3⟩

/-- An always-failing daemon. -/
def c5outcome : Nat → Except String (List Song) :=
  fun _ => .error ("connection reset")

/-- Concrete instantiation of `c5_retry`: under repeated transient failure the
loader stops after the third attempt with the terminal error. -/
theorem c5_retry_witness :
    (Library.load_songs_with_retry c5outcome).attempts = 3 :=
  ((c5_retry c5outcome).2.2.2.2
    ("Failed to load library after 3 attempts: " ++ "connection reset") (by rfl)).1

/-! ### C7 — track ordering within every produced album -/

/-- A track of the concrete example: disc 1, track 1, title "A". -/
def c7trackA : SongInfo :=
  { title := ("A").data, artist := ("X").data, album_artist := ("X").data,
    has_explicit_album_artist := false, album := ("Al").data,
    file_path := ("fa").data, disc_number := 1, track_number := 1 }

/-- A track of the concrete example: disc 1, track 2, title "B". -/
def c7trackB : SongInfo :=
  { title := ("B").data, artist := ("X").data, album_artist := ("X").data,
    has_explicit_album_artist := false, album := ("Al").data,
    file_path := ("fb").data, disc_number := 1, track_number := 2 }

/-- A track of the concrete example: disc 2, track 1, title "C". -/
def c7trackC : SongInfo :=
  { title := ("C").data, artist := ("X").data, album_artist := ("X").data,
    has_explicit_album_artist := false, album := ("Al").data,
    file_path := ("fc").data, disc_number := 2, track_number := 1 }

/-- All six orderings of the three example tracks. -/
def c7perms : List (List SongInfo) :=
  [[c7trackA, c7trackB, c7trackC], [c7trackA, c7trackC, c7trackB],
   [c7trackB, c7trackA, c7trackC], [c7trackB, c7trackC, c7trackA],
   [c7trackC, c7trackA, c7trackB], [c7trackC, c7trackB, c7trackA]]

/-- C7: in both loading strategies every produced album has its tracks in
ascending (disc number, track number, title) order, and on the concrete
three-track example every input permutation sorts to [(1,1,"A"), (1,2,"B"),
(2,1,"C")]. -/
theorem c7_track_order :
    (∀ (songs : List Song), ∀ ar ∈ (Library.load_library songs).artists,
      ∀ al ∈ ar.albums, al.tracks.Pairwise trackLe) ∧
    (∀ (infos : List SongInfo), ∀ al ∈ buildAlbums infos,
      al.tracks.Pairwise trackLe) ∧
    (∀ l ∈ c7perms, sortTracks l = [c7trackA, c7trackB, c7trackC]) := by
  refine ⟨?_, ?_, by decide⟩
  · intro songs ar har al hal
    unfold Library.load_library at har
    obtain ⟨ar0, -, rfl⟩ := List.mem_map.1 har
    dsimp only at hal
    obtain ⟨al0, -, rfl⟩ := List.mem_map.1 hal
    exact List.sorted_insertionSort trackLe al0.tracks
  · intro infos al hal
    unfold buildAlbums at hal
    rw [(List.perm_insertionSort albumCiLe _).mem_iff] at hal
    obtain ⟨g, -, rfl⟩ := List.mem_map.1 hal
    exact List.sorted_insertionSort trackLe g.2

/-- Concrete instantiation of `c7_track_order`: one of the six permutations
sorts to the expected order. -/
theorem c7_track_order_witness :
    sortTracks [c7trackB, c7trackA, c7trackC] = [c7trackA, c7trackB, c7trackC] :=
  c7_track_order.2.2 [c7trackB, c7trackA, c7trackC] (by decide)

/-- `c7perms` is exhaustive: every permutation of the example track list is
one of its six entries, so the concrete part of C7 ranges over all input
permutations. -/
theorem c7perms_complete :
    ∀ l, l.Perm [c7trackB, c7trackA, c7trackC] → l ∈ c7perms := by
  intro l hl
  have hlen : l.length = 3 := hl.length_eq
  have hnd : l.Nodup := hl.nodup_iff.2 (by decide)
  obtain ⟨x, y, z, rfl⟩ : ∃ x y z, l = [x, y, z] := by
    match l, hlen with
    | [x, y, z], _ => exact ⟨x, y, z, rfl⟩
  have hx : x ∈ [c7trackB, c7trackA, c7trackC] := hl.mem_iff.1 (by simp)
  have hy : y ∈ [c7trackB, c7trackA, c7trackC] := hl.mem_iff.1 (by simp)
  have hz : z ∈ [c7trackB, c7trackA, c7trackC] := hl.mem_iff.1 (by simp)
  simp only [List.mem_cons, List.not_mem_nil, or_false] at hx hy hz
  rcases hx with rfl | rfl | rfl <;> rcases hy with rfl | rfl | rfl <;>
    rcases hz with rfl | rfl | rfl <;>
    first
      | exact absurd hnd (by decide)
      | decide

/-! ### C1 — album ordering within an artist, in both strategies -/

/-- Eager counterexample input, song 1: artist "Art", album "B". -/
def c1song1 : Song :=
  { title := some (("t1").data), artists := [("Art").data], album_artists := [],
    album := some (("B").data), file_path := ("f1").data,
    disc_number := 1, track_number := 1 }

/-- Eager counterexample input, song 2: artist "Art", album "a". -/
def c1song2 : Song :=
  { title := some (("t2").data), artists := [("Art").data], album_artists := [],
    album := some (("a").data), file_path := ("f2").data,
    disc_number := 1, track_number := 2 }

/-- The two-song catalog whose albums "B" and "a" order differently under
case-sensitive and case-insensitive comparison. -/
def c1ex : List Song := [c1song1, c1song2]

/-- C1 fails on the eager path: `Library::load_library` on a catalog with one
artist owning albums "B" and "a" produces them in the byte-wise order
["B", "a"], which is not case-insensitive order ("a" < "B" ignoring case). -/
theorem c1_counterexample :
    ((Library.load_library c1ex).artists.map (fun ar => ar.albums.map Album.name)) =
      [[("B").data, ("a").data]] ∧
    ¬ (∀ ar ∈ (Library.load_library c1ex).artists, ar.albums.Pairwise albumCiLe) := by
  exact ⟨by decide, by decide⟩

/-- C1 amended: the lazy loader stores every artist's albums sorted
case-insensitively by name, but the eager loader sorts the albums within an
artist case-sensitively (byte-wise lexicographically) by name. -/
theorem c1_amended :
    (∀ (songs : List Song), ∀ ar ∈ (Library.load_library songs).artists,
      ar.albums.Pairwise albumCsLe) ∧
    (∀ (lib : LazyLibrary) (i : Nat) (songs : List Song) (a : LazyArtist)
        (lib' : LazyLibrary) (k : Nat),
      lib.artists.get? i = some a → a.is_loaded = false →
      lib.load_artist i songs = .ok (lib', k) →
      lib'.artists.get? i =
        some { a with albums := some (buildAlbums (songs.map SongInfo.from_song)) } ∧
      (buildAlbums (songs.map SongInfo.from_song)).Pairwise albumCiLe) := by
  constructor
  · intro songs ar har
    unfold Library.load_library at har
    obtain ⟨ar0, -, rfl⟩ := List.mem_map.1 har
    dsimp only
    refine List.Pairwise.map _ ?_ (List.sorted_insertionSort albumCsLe ar0.albums)
    intro x y hxy
    exact hxy
  · intro lib i songs a lib' k ha hl h
    unfold LazyLibrary.load_artist at h
    rw [ha] at h
    dsimp only at h
    rw [if_neg (by simp [hl])] at h
    have hlen : i < lib.artists.length := by
      by_contra hlen
      rw [List.get?_eq_none.2 (le_of_not_lt hlen)] at ha
      cases ha
    cases h
    constructor
    · simpa using List.get?_set_eq_of_lt
        { a with albums := some (buildAlbums (songs.map SongInfo.from_song)) }
        (l := lib.artists) hlen
    · exact List.sorted_insertionSort albumCiLe _

/-- Concrete instantiation of `c1_amended`: the eager loader's albums for the
counterexample catalog are sorted case-sensitively. -/
theorem c1_amended_witness :
    (((Library.load_library c1ex).artists.headD
        { name := [], albums := [] }).albums).Pairwise albumCsLe :=
  c1_amended.1 c1ex _ (by decide)

/-! ### C2 — canonical-artist fallback: majority and tie-breaking -/

theorem foldl_maxStep_eq_none {l : List (Str × Nat)} {acc : Option (Str × Nat)}
    (h : l.foldl maxStep acc = none) : acc = none ∧ l = [] := by
  induction l generalizing acc with
  | nil => exact ⟨h, rfl⟩
  | cons p l ih =>
    rw [List.foldl_cons] at h
    obtain ⟨hstep, -⟩ := ih h
    unfold maxStep at hstep
    cases acc with
    | none => cases hstep
    | some q =>
      dsimp only at hstep
      by_cases hle : q.2 ≤ p.2
      · rw [if_pos hle] at hstep; cases hstep
      · rw [if_neg hle] at hstep; cases hstep

theorem foldl_maxStep_mem (l : List (Str × Nat)) :
    ∀ acc : Option (Str × Nat),
      l.foldl maxStep acc = acc ∨ ∃ p ∈ l, l.foldl maxStep acc = some p := by
  induction l with
  | nil => intro acc; exact Or.inl rfl
  | cons p l ih =>
    intro acc
    rw [List.foldl_cons]
    rcases ih (maxStep acc p) with h | ⟨q, hq, h⟩
    · rw [h]
      unfold maxStep
      cases acc with
      | none => exact Or.inr ⟨p, List.mem_cons_self _ _, rfl⟩
      | some q =>
        dsimp only
        by_cases hle : q.2 ≤ p.2
        · rw [if_pos hle]
          exact Or.inr ⟨p, List.mem_cons_self _ _, rfl⟩
        · rw [if_neg hle]
          exact Or.inl rfl
    · exact Or.inr ⟨q, List.mem_cons_of_mem _ hq, h⟩

theorem maxStep_dominates (acc : Option (Str × Nat)) (p : Str × Nat) :
    ∃ m, maxStep acc p = some m ∧ p.2 ≤ m.2 ∧
      ∀ q, acc = some q → q.2 ≤ m.2 := by
  unfold maxStep
  cases acc with
  | none => exact ⟨p, rfl, le_refl _, fun q hq => by cases hq⟩
  | some q =>
    dsimp only
    by_cases hle : q.2 ≤ p.2
    · rw [if_pos hle]
      exact ⟨p, rfl, le_refl _, fun q' hq' => by cases hq'; exact hle⟩
    · rw [if_neg hle]
      exact ⟨q, rfl, le_of_not_le hle, fun q' hq' => by cases hq'; exact le_refl _⟩

theorem foldl_maxStep_dominated (l : List (Str × Nat)) :
    ∀ (acc : Option (Str × Nat)) (r : Str × Nat), l.foldl maxStep acc = some r →
      (∀ p ∈ l, p.2 ≤ r.2) ∧ (∀ q, acc = some q → q.2 ≤ r.2) := by
  induction l with
  | nil =>
    intro acc r h
    rw [List.foldl_nil] at h
    refine ⟨fun p hp => absurd hp (List.not_mem_nil p), fun q hq => ?_⟩
    rw [hq] at h
    cases h
    exact le_refl _
  | cons p l ih =>
    intro acc r h
    rw [List.foldl_cons] at h
    obtain ⟨hmem, hacc⟩ := ih (maxStep acc p) r h
    obtain ⟨m, hm, hpm, hqm⟩ := maxStep_dominates acc p
    have hmr : m.2 ≤ r.2 := hacc m hm
    refine ⟨?_, fun q hq => le_trans (hqm q hq) hmr⟩
    intro x hx
    rcases List.mem_cons.1 hx with rfl | hx'
    · exact le_trans hpm hmr
    · exact hmem x hx'

/-- If one entry of the count enumeration strictly dominates every other, the
`max_by_key` fallback picks it, regardless of enumeration order. -/
theorem resolveFallback_strict_max (counts : List (Str × Nat)) (p : Str × Nat)
    (hp : p ∈ counts) (hstrict : ∀ q ∈ counts, q ≠ p → q.2 < p.2) :
    resolveFallback counts = p.1 := by
  unfold resolveFallback maxByKeyLast
  rcases foldl_maxStep_mem counts none with h | ⟨r, hr, h⟩
  · obtain ⟨-, hnil⟩ := foldl_maxStep_eq_none h
    rw [hnil] at hp
    exact absurd hp (List.not_mem_nil p)
  · obtain ⟨hdom, -⟩ := foldl_maxStep_dominated counts none r h
    have : r = p := by
      by_contra hne
      exact absurd (hdom p hp) (not_le_of_lt (hstrict r hr hne))
    rw [h, this]
    rfl

/-- A track by artist "X" (no explicit album-artist tag). -/
def c2trackX : SongInfo :=
  { title := ("t1").data, artist := ("X").data, album_artist := ("X").data,
    has_explicit_album_artist := false, album := ("Al").data,
    file_path := ("fx1").data, disc_number := 1, track_number := 1 }

/-- A second track by artist "X" (no explicit album-artist tag). -/
def c2trackX2 : SongInfo :=
  { title := ("t2").data, artist := ("X").data, album_artist := ("X").data,
    has_explicit_album_artist := false, album := ("Al").data,
    file_path := ("fx2").data, disc_number := 1, track_number := 2 }

/-- A track by artist "Y" (no explicit album-artist tag). -/
def c2trackY : SongInfo :=
  { title := ("t3").data, artist := ("Y").data, album_artist := ("Y").data,
    has_explicit_album_artist := false, album := ("Al").data,
    file_path := ("fy").data, disc_number := 1, track_number := 3 }

/-- C2 fails as stated: on a frequency tie the fallback is decided by the
enumeration order of the count `HashMap` (`max_by_key` takes the last maximal
element), not lexicographically.  Both displayed enumerations are orders of
the same count map of the tied album [artist=X],[artist=Y]; one resolves to
"Y", the other to "X", and the code's own first-insertion enumeration yields
"Y", the lexicographically greater name. -/
theorem c2_counterexample :
    List.Perm [(("X").data, 1), (("Y").data, 1)] (artistCounts [c2trackX, c2trackY]) ∧
    List.Perm [(("Y").data, 1), (("X").data, 1)] (artistCounts [c2trackX, c2trackY]) ∧
    resolveFallback [(("X").data, 1), (("Y").data, 1)] = ("Y").data ∧
    resolveFallback [(("Y").data, 1), (("X").data, 1)] = ("X").data ∧
    resolveCanonical [c2trackX, c2trackY] = ("Y").data ∧
    ¬ ((("Y").data : Str) ≤ ("X").data) := by
  decide

/-- C2 amended: with no explicit album-artist tag the canonical artist is a
track-artist of maximal frequency; when one artist is strictly most frequent
it is chosen for every enumeration order of the count map — in particular
[artist=X],[artist=X],[artist=Y] resolves to X — but frequency ties are
broken by the arbitrary `HashMap` iteration order (last maximal element
wins), not lexicographically. -/
theorem c2_amended :
    (∀ (counts : List (Str × Nat)) (p : Str × Nat), p ∈ counts →
      (∀ q ∈ counts, q ≠ p → q.2 < p.2) → resolveFallback counts = p.1) ∧
    (∀ enum : List (Str × Nat),
      enum.Perm (artistCounts [c2trackX, c2trackX2, c2trackY]) →
      resolveFallback enum = ("X").data) := by
  refine ⟨resolveFallback_strict_max, ?_⟩
  intro enum hperm
  have hc : artistCounts [c2trackX, c2trackX2, c2trackY] =
      [(("X").data, 2), (("Y").data, 1)] := by decide
  rw [hc] at hperm
  apply resolveFallback_strict_max enum ((("X").data : Str), 2)
  · exact hperm.mem_iff.2 (by decide)
  · intro q hq hne
    have hmem : q ∈ [(("X").data, 2), (("Y").data, 1)] := hperm.mem_iff.1 hq
    rcases List.mem_cons.1 hmem with rfl | hmem'
    · exact absurd rfl hne
    · rcases List.mem_cons.1 hmem' with rfl | hmem''
      · exact Nat.one_lt_two
      · exact absurd hmem'' (List.not_mem_nil q)

/-- Concrete instantiation of `c2_amended`: the majority artist wins under a
reversed enumeration order as well. -/
theorem c2_amended_witness :
    resolveFallback [(("Y").data, 1), (("X").data, 2)] = ("X").data :=
  c2_amended.2 [(("Y").data, 1), (("X").data, 2)] (by decide)

/-! ### C3 — explicit album-artist tags dominate canonicalization -/

theorem canonicalMap_lookup {infos : List SongInfo} {A : Str}
    (hA : A ∈ keysInOrder (fun si => si.album) infos) :
    lookupStr A (canonicalMap infos) =
      some (resolveCanonical (infos.filter (fun si => si.album = A))) := by
  unfold canonicalMap albumsByName groupByKey
  rw [List.map_map]
  exact lookupStr_mapKeys
    (f := fun k => resolveCanonical (infos.filter (fun si => si.album = k))) hA

theorem mem_load_library_tracks {songs : List Song} {ar : Artist} {al : Album}
    {t : SongInfo} (har : ar ∈ (Library.load_library songs).artists)
    (hal : al ∈ ar.albums) (ht : t ∈ al.tracks) :
    t ∈ pass2 (songs.map SongInfo.from_song) := by
  unfold Library.load_library at har
  obtain ⟨ar0, har0, rfl⟩ := List.mem_map.1 har
  dsimp only at hal
  obtain ⟨al0, hal0, rfl⟩ := List.mem_map.1 hal
  dsimp only at ht
  unfold sortTracks at ht
  have ht0 : t ∈ al0.tracks :=
    (List.perm_insertionSort trackLe al0.tracks).mem_iff.1 ht
  have hal1 : al0 ∈ ar0.albums :=
    (List.perm_insertionSort albumCsLe ar0.albums).mem_iff.1 hal0
  have har1 : ar0 ∈ buildArtistsEager (pass2 (songs.map SongInfo.from_song)) :=
    (List.perm_insertionSort artistLe _).mem_iff.1 har0
  unfold buildArtistsEager at har1
  obtain ⟨g, hg, rfl⟩ := List.mem_map.1 har1
  dsimp only at hal1
  obtain ⟨h, hh, rfl⟩ := List.mem_map.1 hal1
  dsimp only at ht0
  exact (mem_of_mem_group hg (mem_of_mem_group hh ht0).1).1

theorem pass2_album_artist {infos : List SongInfo} {t : SongInfo} {A c : Str}
    (ht : t ∈ pass2 infos) (hA : t.album = A)
    (hc : lookupStr A (canonicalMap infos) = some c) :
    t.album_artist = c := by
  unfold pass2 at ht
  obtain ⟨si, hsi, rfl⟩ := List.mem_map.1 ht
  revert hA
  cases hl : lookupStr si.album (canonicalMap infos) with
  | none =>
    intro hA
    dsimp only at hA ⊢
    rw [hA] at hl
    rw [hl] at hc
    cases hc
  | some c' =>
    intro hA
    dsimp only at hA ⊢
    rw [hA] at hl
    rw [hl] at hc
    cases hc
    rfl

/-- Concrete C3 input, song 1: artist X, no album-artist tag, album "Al". -/
def c3song1 : Song :=
  { title := some (("t1").data), artists := [("X").data], album_artists := [],
    album := some (("Al").data), file_path := ("f1").data,
    disc_number := 1, track_number := 1 }

/-- Concrete C3 input, song 2: artist Y, explicit album-artist Z, album "Al". -/
def c3song2 : Song :=
  { title := some (("t2").data), artists := [("Y").data],
    album_artists := [("Z").data], album := some (("Al").data),
    file_path := ("f2").data, disc_number := 1, track_number := 2 }

/-- The two-song C3 catalog. -/
def c3ex : List Song := [c3song1, c3song2]

/-- C3: if some track of an album carries an explicit album-artist tag, the
canonical artist of that album is the explicit album-artist of the first such
track, and pass 2 writes it onto the `album_artist` field of every track of
that album in the eagerly loaded library; on the concrete catalog
[artist=X, albumartist=none], [artist=Y, albumartist=Z] every track resolves
to album-artist Z. -/
theorem c3_explicit_album_artist :
    (∀ (songs : List Song) (A : Str) (t0 : SongInfo),
      ((songs.map SongInfo.from_song).filter (fun si => si.album = A)).find?
          (fun si => si.has_explicit_album_artist) = some t0 →
      lookupStr A (canonicalMap (songs.map SongInfo.from_song)) =
          some t0.album_artist ∧
      (∀ ar ∈ (Library.load_library songs).artists, ∀ al ∈ ar.albums,
        ∀ t ∈ al.tracks, t.album = A → t.album_artist = t0.album_artist)) ∧
    (∀ ar ∈ (Library.load_library c3ex).artists, ∀ al ∈ ar.albums,
      ∀ t ∈ al.tracks, t.album_artist = ("Z").data) := by
  constructor
  · intro songs A t0 hfind
    have hbucket :
        resolveCanonical
            ((songs.map SongInfo.from_song).filter (fun si => si.album = A)) =
          t0.album_artist := by
      unfold resolveCanonical
      rw [hfind]
    have ht0 : t0 ∈ (songs.map SongInfo.from_song).filter (fun si => si.album = A) :=
      List.mem_of_find?_eq_some hfind
    have ht0' := List.mem_filter.1 ht0
    have hA : A ∈ keysInOrder (fun si => si.album) (songs.map SongInfo.from_song) :=
      mem_keysInOrder.2 ⟨t0, ht0'.1, by simpa using ht0'.2⟩
    have hlook := canonicalMap_lookup hA
    rw [hbucket] at hlook
    refine ⟨hlook, ?_⟩
    intro ar har al hal t ht htA
    exact pass2_album_artist (mem_load_library_tracks har hal ht) htA hlook
  · decide

/-- Concrete instantiation of `c3_explicit_album_artist`: the canonical-artist
map of the example catalog resolves album "Al" to the explicit tag Z. -/
theorem c3_explicit_album_artist_witness :
    lookupStr (("Al").data) (canonicalMap (c3ex.map SongInfo.from_song)) =
      some (SongInfo.from_song c3song2).album_artist :=
  (c3_explicit_album_artist.1 c3ex (("Al").data) (SongInfo.from_song c3song2)
    (by decide)).1

/-! ### C4 — the flattened index and the completion flag of `LazyLibrary` -/

/-- Coverage half of the lazy-library invariant: the flattened `all_albums`
index has an entry (keyed by the (artist name, album name) pair the merge
loop deduplicates on) for every album of every loaded artist. -/
def CoveredAlbums (lib : LazyLibrary) : Prop :=
  ∀ a ∈ lib.artists, ∀ albs, a.albums = some albs → ∀ alb ∈ albs,
    ∃ e ∈ lib.all_albums, e.1 = a.name ∧ e.2.name = alb.name

/-- Flag half of the lazy-library invariant: `all_albums_complete` is set
exactly when every artist is loaded. -/
def CompleteFlagOk (lib : LazyLibrary) : Prop :=
  lib.all_albums_complete = true ↔ ∀ a ∈ lib.artists, a.is_loaded = true

/-- The full lazy-library invariant of C4. -/
def LibInv (lib : LazyLibrary) : Prop := CoveredAlbums lib ∧ CompleteFlagOk lib

/-- C4 fails as stated on the empty library: `init` hard-codes the completion
flag to `false`, yet with an empty artist list every artist is (vacuously)
loaded, so the flag is not "set exactly when every artist is loaded". -/
theorem c4_counterexample :
    ¬ ((LazyLibrary.init []).all_albums_complete = true ↔
        ∀ a ∈ (LazyLibrary.init []).artists, a.is_loaded = true) := by
  decide

theorem mergeAllAlbums_cons (acc : List (Str × Album)) (an : Str) (alb : Album)
    (albums : List Album) :
    mergeAllAlbums acc an (alb :: albums) =
      mergeAllAlbums
        (if ∃ e ∈ acc, e.1 = an ∧ e.2.name = alb.name then acc
         else acc ++ [(an, alb)]) an albums := rfl

theorem mergeAllAlbums_mem_mono {e : Str × Album} {acc : List (Str × Album)}
    (he : e ∈ acc) (an : Str) (albums : List Album) :
    e ∈ mergeAllAlbums acc an albums := by
  induction albums generalizing acc with
  | nil => exact he
  | cons alb albums ih =>
    rw [mergeAllAlbums_cons]
    apply ih
    by_cases hex : ∃ x ∈ acc, x.1 = an ∧ x.2.name = alb.name
    · rw [if_pos hex]; exact he
    · rw [if_neg hex]; exact List.mem_append_left _ he

theorem mergeAllAlbums_covers {an : Str} (albums : List Album) :
    ∀ acc : List (Str × Album), ∀ alb ∈ albums,
      ∃ e ∈ mergeAllAlbums acc an albums, e.1 = an ∧ e.2.name = alb.name := by
  induction albums with
  | nil =>
    intro acc alb h
    exact absurd h (List.not_mem_nil alb)
  | cons alb0 albums ih =>
    intro acc alb halb
    rw [mergeAllAlbums_cons]
    rcases List.mem_cons.1 halb with rfl | halb'
    · by_cases hex : ∃ x ∈ acc, x.1 = an ∧ x.2.name = alb.name
      · obtain ⟨x, hx, hx2⟩ := hex
        refine ⟨x, ?_, hx2⟩
        apply mergeAllAlbums_mem_mono _ an albums
        rw [if_pos ⟨x, hx, hx2⟩]
        exact hx
      · refine ⟨(an, alb), ?_, rfl, rfl⟩
        apply mergeAllAlbums_mem_mono _ an albums
        rw [if_neg hex]
        exact List.mem_append_right _ (List.mem_singleton.2 rfl)
    · exact ih _ alb halb'

/-- C4 amended: after `init` the coverage half of the invariant holds
(vacuously — nothing is loaded and the index is empty), and the completion
flag is correct whenever the artist list is nonempty (with an empty artist
list it stays `false` even though every artist is vacuously loaded, the
counterexample above); every successful `load_artist` call preserves the full
invariant — the flattened index covers every album of every loaded artist and
the flag is recomputed to hold exactly when all artists are loaded. -/
theorem c4_amended :
    (∀ names : List Str, CoveredAlbums (LazyLibrary.init names)) ∧
    (∀ names : List Str, names.filter (fun n => n ≠ []) ≠ [] →
      LibInv (LazyLibrary.init names)) ∧
    (∀ (lib lib' : LazyLibrary) (i k : Nat) (songs : List Song),
      LibInv lib → lib.load_artist i songs = .ok (lib', k) → LibInv lib') := by
  have initCovered : ∀ names : List Str, CoveredAlbums (LazyLibrary.init names) := by
    intro names a ha albs halbs
    obtain ⟨n, -, rfl⟩ := List.mem_map.1 ha
    cases halbs
  refine ⟨initCovered, ?_, ?_⟩
  · intro names hne
    refine ⟨initCovered names, ?_, ?_⟩
    · intro h
      cases h
    · intro hall
      exfalso
      obtain ⟨n, hn⟩ : ∃ n, n ∈ names.filter (fun n => n ≠ []) := by
        cases hnl : names.filter (fun n => n ≠ []) with
        | nil => exact absurd hnl hne
        | cons x xs => exact ⟨x, hnl ▸ List.mem_cons_self x xs⟩
      have hn' : n ∈ List.insertionSort nameCiLe (names.filter (fun n => n ≠ [])) :=
        (List.perm_insertionSort nameCiLe _).mem_iff.2 hn
      have hmem : LazyArtist.new n ∈ (LazyLibrary.init names).artists :=
        List.mem_map_of_mem _ hn'
      have := hall _ hmem
      simp [LazyArtist.new, LazyArtist.is_loaded] at this
  · intro lib lib' i k songs hinv h
    unfold LazyLibrary.load_artist at h
    cases ha : lib.artists.get? i with
    | none => rw [ha] at h; exact absurd h (by simp)
    | some a =>
      rw [ha] at h
      dsimp only at h
      by_cases hl : a.is_loaded = true
      · rw [if_pos hl] at h
        have hlib : lib = lib' := by cases h; rfl
        subst hlib
        exact hinv
      · rw [if_neg hl] at h
        cases h
        constructor
        · intro a' ha' albs halbs alb halb
          rcases List.mem_or_eq_of_mem_set ha' with hmem | rfl
          · obtain ⟨e, he, hee⟩ := hinv.1 a' hmem albs halbs alb halb
            exact ⟨e,
              (List.perm_insertionSort allAlbumsLe _).mem_iff.2
                (mergeAllAlbums_mem_mono he _ _),
              hee⟩
          · dsimp only at halbs halb ⊢
            cases halbs
            obtain ⟨e, he, hee⟩ := mergeAllAlbums_covers _ lib.all_albums alb halb
            exact ⟨e, (List.perm_insertionSort allAlbumsLe _).mem_iff.2 he, hee⟩
        · unfold CompleteFlagOk
          dsimp only
          exact List.all_eq_true

/-- Concrete instantiation of `c4_amended`: loading the only artist of a
one-artist library yields a state satisfying the full invariant (index covers
the loaded artist, completion flag set). -/
theorem c4_amended_witness :
    LibInv { artists := [{ name := ("A").data, albums := some [] }],
             all_albums := [], all_albums_complete := true } :=
  c4_amended.2.2 (LazyLibrary.init [("A").data])
    { artists := [{ name := ("A").data, albums := some [] }],
      all_albums := [], all_albums_complete := true } 0 1 []
    (c4_amended.2.1 [("A").data] (by decide)) (by rfl)
